import Mathlib

set_option maxHeartbeats 1000000
set_option maxRecDepth 8000

/-!
Shallow embedding of the registration pipeline of the siahrokh
chess-tournament registration application: the data model from
shared/schema.ts, the in-memory and database-backed storage backends from
server/storage.ts, the POST /api/registrations validation block from
server/routes.ts, and the numeral normalizer from
client/src/hooks/useLanguage.tsx.

Nondeterministic inputs of the original code (uuid generation, Date.now,
Math.random) are passed as explicit parameters: generated ids and
timestamps are arguments, and the certificate-id generator's stream of
pseudo-random candidates is a function from the attempt index to the
candidate string.  Timestamps are modelled as integers (epoch
milliseconds, the value of Date.getTime).  Thrown exceptions are
modelled with Except paired with the state after the call, so that a
throw leaves the state component untouched, exactly as in the source
where the throw happens before any mutation.
-/

namespace Siahrokh

/-- users table (shared/schema.ts). -/
structure User where
  id : String
  username : String
  password : String
deriving Repr, DecidableEq

/-- tournaments table (shared/schema.ts). -/
structure Tournament where
  id : String
  name : String
  date : Int
  time : String
  isOpen : Bool
  venueAddress : String
  venueInfo : Option String
  createdAt : Int
  updatedAt : Int
deriving Repr, DecidableEq

/-- registrations table (shared/schema.ts). -/
structure Registration where
  id : String
  tournamentId : String
  name : String
  phone : String
  email : String
  yearOfBirth : Int
  receiptFilePath : String
  agreedTos : Bool
  description : Option String
  certificateId : String
  certificateConfirmed : Bool
  createdAt : Int
deriving Repr, DecidableEq

/-- app_settings table (shared/schema.ts); at most one row exists. -/
structure AppSettings where
  id : String
  nextTournamentId : Option String
  updatedAt : Int
deriving Repr, DecidableEq

/-- The state held by a storage backend: MemoryStorage's four private
fields, equally the four tables seen by DatabaseStorage. -/
structure StorageState where
  users : List User
  tournaments : List Tournament
  registrations : List Registration
  appSettings : Option AppSettings
deriving Repr, DecidableEq

/-- InsertRegistration (insertRegistrationSchema of shared/schema.ts):
the registrations columns minus id, certificateId, certificateConfirmed
and createdAt; agreedTos and description are optional in the insert
schema because the columns have a default resp. are nullable. -/
structure InsertRegistration where
  tournamentId : String
  name : String
  phone : String
  email : String
  yearOfBirth : Int
  receiptFilePath : String
  agreedTos : Option Bool
  description : Option String
deriving Repr, DecidableEq

/-- InsertTournament (insertTournamentSchema of shared/schema.ts):
tournaments columns minus id, createdAt, updatedAt; isOpen has a column
default and venueInfo is nullable, so both are optional on insert. -/
structure InsertTournament where
  name : String
  date : Int
  time : String
  isOpen : Option Bool
  venueAddress : String
  venueInfo : Option (Option String)
deriving Repr, DecidableEq

/-- InsertUser (insertUserSchema of shared/schema.ts). -/
structure InsertUser where
  username : String
  password : String
deriving Repr, DecidableEq

/-!
Numeral normalizer, client/src/hooks/useLanguage.tsx, normalizeNumerals.
The source replaces, via the global regex character class of the Persian
range U+06F0 to U+06F9 and the Arabic-Indic range U+0660 to U+0669, each
matched character through a literal lookup table; every other character
is left in place.  The table is embedded character by character.
-/

/-- The per-character lookup table of normalizeNumerals: the Persian and
Arabic-Indic digit tables of the source, any other character unchanged. -/
def normalizeChar (c : Char) : Char :=
  if c = '۰' then '0' else if c = '۱' then '1'
  else if c = '۲' then '2' else if c = '۳' then '3'
  else if c = '۴' then '4' else if c = '۵' then '5'
  else if c = '۶' then '6' else if c = '۷' then '7'
  else if c = '۸' then '8' else if c = '۹' then '9'
  else if c = '٠' then '0' else if c = '١' then '1'
  else if c = '٢' then '2' else if c = '٣' then '3'
  else if c = '٤' then '4' else if c = '٥' then '5'
  else if c = '٦' then '6' else if c = '٧' then '7'
  else if c = '٨' then '8' else if c = '٩' then '9'
  else c

/-- normalizeNumerals (useLanguage.tsx): character-by-character
replacement; the falsy early return of the source only concerns the
empty string, on which the map is also the identity. -/
def normalizeNumerals (input : String) : String :=
  String.mk (input.data.map normalizeChar)

/-- The twenty characters matched by the regex character class of
normalizeNumerals. -/
def persianArabicDigits : List Char :=
  ['۰', '۱', '۲', '۳', '۴', '۵', '۶', '۷', '۸', '۹',
   '٠', '١', '٢', '٣', '٤', '٥', '٦', '٧', '٨', '٩']

/-- The Persian digit character of value v. -/
def persianDigit (v : Fin 10) : Char := Char.ofNat (0x6F0 + v.val)

/-- The Arabic-Indic digit character of value v. -/
def arabicIndicDigit (v : Fin 10) : Char := Char.ofNat (0x660 + v.val)

/-- The ASCII digit character of value v. -/
def asciiDigit (v : Fin 10) : Char := Char.ofNat (48 + v.val)

/-!
Validation block of POST /api/registrations, server/routes.ts
lines 170 to 219.  The multipart body fields arrive as strings; a field
missing from the request is modelled as none.  The JavaScript falsiness
test on a string field holds for a missing field and for the empty
string.
-/

/-- The uploaded receipt file as the route sees it (req.file). -/
structure UploadedFile where
  mimetype : String
  size : Nat
  path : String
deriving Repr, DecidableEq

/-- The multipart body fields of POST /api/registrations (req.body). -/
structure RawBody where
  name : Option String
  phone : Option String
  email : Option String
  yearOfBirth : Option String
  agreedTos : Option String
  tournamentId : Option String
  description : Option String
deriving Repr, DecidableEq

/-- JavaScript falsiness of a possibly missing string field:
undefined and the empty string are falsy. -/
def jsFalsy : Option String → Bool
  | none => true
  | some s => decide (s = "")

/-- String.prototype.trim: remove leading and trailing whitespace. -/
def jsTrim (s : String) : String :=
  String.mk
    (((s.data.dropWhile Char.isWhitespace).reverse.dropWhile
      Char.isWhitespace).reverse)

/-- String.prototype.includes for a single-character needle. -/
def jsIncludesChar (s : String) (c : Char) : Bool :=
  s.data.contains c

/-- The test of the regex of routes.ts line 187: the string is exactly
four ASCII decimal digits. -/
def isFourAsciiDigits (s : String) : Bool :=
  s.length == 4 && s.data.all Char.isDigit

/-- The mimetypes accepted by the receipt-file type check
(routes.ts line 195). -/
def allowedTypes : List String :=
  ["image/jpeg", "image/jpg", "image/png", "application/pdf"]

/-- The validation block of POST /api/registrations (routes.ts
lines 170 to 212): the sequence of pushes onto the errors array,
embedded as appends, in source order. -/
def validateRegistration (body : RawBody) (file : Option UploadedFile) :
    List String :=
  let errors : List String := []
  let errors := if jsFalsy body.name ||
      decide ((jsTrim (body.name.getD "")).length < 2) then
    errors ++ ["Full name must be at least 2 characters long"] else errors
  let errors := if jsFalsy body.phone ||
      decide ((body.phone.getD "").length < 10) then
    errors ++ ["Phone number must be at least 10 digits"] else errors
  let errors := if jsFalsy body.email ||
      !(jsIncludesChar (body.email.getD "") '@') then
    errors ++ ["Valid email address is required"] else errors
  let errors := if jsFalsy body.yearOfBirth then
      errors ++ ["Year of birth is required"]
    else if !isFourAsciiDigits (body.yearOfBirth.getD "") then
      errors ++ ["Year of birth must be a 4-digit number"]
    else errors
  let errors := match file with
    | none => errors ++ ["Receipt file is required"]
    | some f =>
      let errors := if !(allowedTypes.contains f.mimetype) then
        errors ++ ["Only JPEG, PNG, and PDF files are allowed"] else errors
      if decide (f.size > 10 * 1024 * 1024) then
        errors ++ ["File size must be less than 10MB"] else errors
  let errors := if body.agreedTos != some "true" then
    errors ++ ["You must agree to the Terms of Service"] else errors
  let errors := if jsFalsy body.tournamentId then
    errors ++ ["Tournament selection is required"] else errors
  errors

/-- The messages the name rule contributes, evaluated on its own. -/
def nameErrors (body : RawBody) : List String :=
  if jsFalsy body.name ||
      decide ((jsTrim (body.name.getD "")).length < 2) then
    ["Full name must be at least 2 characters long"] else []

/-- The messages the phone rule contributes, evaluated on its own. -/
def phoneErrors (body : RawBody) : List String :=
  if jsFalsy body.phone || decide ((body.phone.getD "").length < 10) then
    ["Phone number must be at least 10 digits"] else []

/-- The messages the email rule contributes, evaluated on its own. -/
def emailErrors (body : RawBody) : List String :=
  if jsFalsy body.email ||
      !(jsIncludesChar (body.email.getD "") '@') then
    ["Valid email address is required"] else []

/-- The messages the year-of-birth rule contributes, on its own. -/
def yearErrors (body : RawBody) : List String :=
  if jsFalsy body.yearOfBirth then ["Year of birth is required"]
  else if !isFourAsciiDigits (body.yearOfBirth.getD "") then
    ["Year of birth must be a 4-digit number"]
  else []

/-- The messages the receipt-file rule contributes, on its own; a
present file is checked for type and for size independently, so this
rule alone can contribute two messages. -/
def fileErrors (file : Option UploadedFile) : List String :=
  match file with
  | none => ["Receipt file is required"]
  | some f =>
    (if !(allowedTypes.contains f.mimetype) then
      ["Only JPEG, PNG, and PDF files are allowed"] else []) ++
    (if decide (f.size > 10 * 1024 * 1024) then
      ["File size must be less than 10MB"] else [])

/-- The messages the terms-of-service rule contributes, on its own. -/
def tosErrors (body : RawBody) : List String :=
  if body.agreedTos != some "true" then
    ["You must agree to the Terms of Service"] else []

/-- The messages the tournament-selection rule contributes, on its own. -/
def tournamentErrors (body : RawBody) : List String :=
  if jsFalsy body.tournamentId then
    ["Tournament selection is required"] else []

/-!
Certificate id generator, server/storage.ts (generateCertificateId of
MemoryStorage and of DatabaseStorage; the two method bodies are
identical).  The two calls to Math.random are surfaced as parameters:
the value of Math.floor(Math.random() * 100000) is d, below 100000, and
the five values of Math.floor(Math.random() * 26) are the letter
indices, each below 26.
-/

/-- The decimal rendering of a natural number, least significant digit
last: the embedding of Number.toString on the generated value. -/
def decChars (n : Nat) : List Char :=
  if h : n < 10 then [Char.ofNat (48 + n)]
  else decChars (n / 10) ++ [Char.ofNat (48 + n % 10)]
  decreasing_by exact Nat.div_lt_self (by omega) (by omega)

/-- String.prototype.padStart: prepend copies of c until the string is
len characters long; a string already at least that long is unchanged. -/
def padStart (s : String) (len : Nat) (c : Char) : String :=
  String.mk (List.replicate (len - s.length) c) ++ s

/-- String.fromCharCode(65 + i) of the generator's letter loop. -/
def letterChar (i : Fin 26) : Char := Char.ofNat (65 + i.val)

/-- generateCertificateId (server/storage.ts): five pseudo-random
decimal digits, zero-padded, followed by five pseudo-random uppercase
letters. -/
def generateCertificateId (d : Fin 100000)
    (l1 l2 l3 l4 l5 : Fin 26) : String :=
  padStart (String.mk (decChars d.val)) 5 '0' ++
    String.mk [letterChar l1, letterChar l2, letterChar l3,
               letterChar l4, letterChar l5]

/-!
Storage backends, server/storage.ts.  MemoryStorage mutates four
process-local arrays; DatabaseStorage issues SQL through drizzle.  Both
are embedded as functions on StorageState.  gen is the stream of
candidate certificate ids produced by successive generateCertificateId
calls, indexed by attempt.
-/

/-- The registration record built by createRegistration: the
MemoryStorage object literal with its defaults overridden by the spread
of insertRegistration, equally the DatabaseStorage insert with its
column defaults.  newId is the generated primary key, cid the resolved
certificateId, now the creation timestamp. -/
def mkRegistration (ins : InsertRegistration) (newId cid : String)
    (now : Int) : Registration :=
  { id := newId
    tournamentId := ins.tournamentId
    name := ins.name
    phone := ins.phone
    email := ins.email
    yearOfBirth := ins.yearOfBirth
    receiptFilePath := ins.receiptFilePath
    agreedTos := ins.agreedTos.getD false
    description := ins.description
    certificateId := cid
    certificateConfirmed := false
    createdAt := now }

/-- The do-while retry loop of createRegistration: starting at attempt
index start with fuel remaining attempts, generate the next candidate,
return it if no stored registration carries it, otherwise retry; none
models the throw after the attempt bound is exhausted. -/
def certIdAttempts (regs : List Registration) (gen : Nat → String) :
    Nat → Nat → Option String
  | _, 0 => none
  | start, fuel + 1 =>
    let certificateId := gen start
    if regs.any fun r => r.certificateId = certificateId then
      certIdAttempts regs gen (start + 1) fuel
    else
      some certificateId

/-- The whole retry loop: maxAttempts is 10 in both backends. -/
def findCertificateId (regs : List Registration) (gen : Nat → String) :
    Option String :=
  certIdAttempts regs gen 0 10

/-- MemoryStorage.createRegistration: run the retry loop against the
stored registrations, then push the new record; the throw on exhaustion
leaves the state untouched. -/
def memCreateRegistration (st : StorageState) (ins : InsertRegistration)
    (newId : String) (now : Int) (gen : Nat → String) :
    Except String Registration × StorageState :=
  match findCertificateId st.registrations gen with
  | none =>
    (Except.error
      "Unable to generate unique certificate ID after multiple attempts",
     st)
  | some cid =>
    let reg := mkRegistration ins newId cid now
    (Except.ok reg,
     { st with registrations := st.registrations ++ [reg] })

/-- DatabaseStorage.createRegistration: the same retry loop, the
existence check being a select limited to one row, then an insert whose
returned row carries the database-generated id and column defaults. -/
def dbCreateRegistration (st : StorageState) (ins : InsertRegistration)
    (newId : String) (now : Int) (gen : Nat → String) :
    Except String Registration × StorageState :=
  match findCertificateId st.registrations gen with
  | none =>
    (Except.error
      "Unable to generate unique certificate ID after multiple attempts",
     st)
  | some cid =>
    let reg := mkRegistration ins newId cid now
    (Except.ok reg,
     { st with registrations := st.registrations ++ [reg] })

/-- MemoryStorage.deleteTournament: drop the registrations of the
tournament, drop the tournament, then clear the next-tournament pointer
when it named the deleted id. -/
def memDeleteTournament (st : StorageState) (id : String) (now : Int) :
    StorageState :=
  let regs := st.registrations.filter fun r => r.tournamentId ≠ id
  let tours := st.tournaments.filter fun t => t.id ≠ id
  let settings := match st.appSettings with
    | none => none
    | some s =>
      if s.nextTournamentId = some id then
        some { s with nextTournamentId := none, updatedAt := now }
      else some s
  { st with registrations := regs, tournaments := tours,
            appSettings := settings }

/-- DatabaseStorage.deleteTournament: the same three steps as SQL
deletes and a conditional settings update. -/
def dbDeleteTournament (st : StorageState) (id : String) (now : Int) :
    StorageState :=
  let regs := st.registrations.filter fun r => r.tournamentId ≠ id
  let tours := st.tournaments.filter fun t => t.id ≠ id
  let settings := match st.appSettings with
    | none => none
    | some s =>
      if s.nextTournamentId = some id then
        some { s with nextTournamentId := none, updatedAt := now }
      else some s
  { st with registrations := regs, tournaments := tours,
            appSettings := settings }

/-- MemoryStorage.getTournament / DatabaseStorage.getTournament. -/
def getTournament (st : StorageState) (id : String) : Option Tournament :=
  st.tournaments.find? fun t => t.id = id

/-- MemoryStorage.getNextTournament (DatabaseStorage.getNextTournament
is identical on the state): the falsiness guard treats a missing
settings row, a null pointer and an empty-string pointer alike. -/
def getNextTournament (st : StorageState) : Option Tournament :=
  match st.appSettings with
  | none => none
  | some s =>
    match s.nextTournamentId with
    | none => none
    | some tid => if tid = "" then none else getTournament st tid

/-- The descending-by-createdAt comparator sort of getRegistrations,
embedded as an insertion sort. -/
def insertDescByCreatedAt (r : Registration) :
    List Registration → List Registration
  | [] => [r]
  | x :: xs =>
    if x.createdAt ≥ r.createdAt then x :: insertDescByCreatedAt r xs
    else r :: x :: xs

/-- Sort registrations newest first, as the comparator of
getRegistrations orders them. -/
def sortDescByCreatedAt (l : List Registration) : List Registration :=
  l.foldr insertDescByCreatedAt []

/-- MemoryStorage.getRegistrations / DatabaseStorage.getRegistrations:
optional filter by tournament id (a truthiness test, so a missing or
empty id means no filter), then sort newest first. -/
def getRegistrations (st : StorageState) (tournamentId : Option String) :
    List Registration :=
  let regs := match tournamentId with
    | none => st.registrations
    | some tid =>
      if tid = "" then st.registrations
      else st.registrations.filter fun r => r.tournamentId = tid
  sortDescByCreatedAt regs

/-- The in-place mutation of MemoryStorage.confirmCertificate: set the
flag on the first stored registration with the given id. -/
def setConfirmedFirst : List Registration → String → List Registration
  | [], _ => []
  | r :: rs, rid =>
    if r.id = rid then { r with certificateConfirmed := true } :: rs
    else r :: setConfirmedFirst rs rid

/-- MemoryStorage.confirmCertificate: find the registration, throw
Registration not found when absent, otherwise set the flag and return
the record. -/
def memConfirmCertificate (st : StorageState) (registrationId : String) :
    Except String Registration × StorageState :=
  match st.registrations.find? fun r => r.id = registrationId with
  | none => (Except.error "Registration not found", st)
  | some r =>
    (Except.ok { r with certificateConfirmed := true },
     { st with registrations :=
        setConfirmedFirst st.registrations registrationId })

/-- DatabaseStorage.confirmCertificate: an update of every row with the
given id, returning the first updated row; when no row matches, the
returned array is empty and the destructured value is undefined, which
the method returns without any error. -/
def dbConfirmCertificate (st : StorageState) (registrationId : String) :
    Option Registration × StorageState :=
  let updated := st.registrations.map fun r =>
    if r.id = registrationId then { r with certificateConfirmed := true }
    else r
  (updated.find? fun r => r.id = registrationId,
   { st with registrations := updated })

/-- MemoryStorage.createUser (DatabaseStorage.createUser inserts with
the same shape, the id being the database default): push the record. -/
def createUser (st : StorageState) (ins : InsertUser) (newId : String) :
    User × StorageState :=
  let user : User := { id := newId, username := ins.username,
                       password := ins.password }
  (user, { st with users := st.users ++ [user] })

/-- The tournament record built on creation: the MemoryStorage object
literal with defaults overridden by the spread of insertTournament,
equally the DatabaseStorage insert with column defaults. -/
def mkTournament (ins : InsertTournament) (newId : String) (now : Int) :
    Tournament :=
  { id := newId
    name := ins.name
    date := ins.date
    time := ins.time
    isOpen := ins.isOpen.getD false
    venueAddress := ins.venueAddress
    venueInfo := match ins.venueInfo with
      | some v => v
      | none => none
    createdAt := now
    updatedAt := now }

/-- MemoryStorage.createTournament / DatabaseStorage.createTournament. -/
def createTournament (st : StorageState) (ins : InsertTournament)
    (newId : String) (now : Int) : Tournament × StorageState :=
  let t := mkTournament ins newId now
  (t, { st with tournaments := st.tournaments ++ [t] })

/-- The spread of insertTournament over an existing record, stamping
updatedAt, as updateTournament merges fields. -/
def applyInsertTournament (t : Tournament) (ins : InsertTournament)
    (now : Int) : Tournament :=
  { id := t.id
    name := ins.name
    date := ins.date
    time := ins.time
    isOpen := ins.isOpen.getD t.isOpen
    venueAddress := ins.venueAddress
    venueInfo := match ins.venueInfo with
      | some v => v
      | none => t.venueInfo
    createdAt := t.createdAt
    updatedAt := now }

/-- MemoryStorage.updateTournament: find the index, throw when absent,
otherwise replace the element with the merged record. -/
def memUpdateTournament (st : StorageState) (id : String)
    (ins : InsertTournament) (now : Int) :
    Except String Tournament × StorageState :=
  match st.tournaments.findIdx? (fun t => t.id = id) with
  | none => (Except.error "Tournament not found", st)
  | some i =>
    match st.tournaments.get? i with
    | none => (Except.error "Tournament not found", st)
    | some t =>
      let t' := applyInsertTournament t ins now
      (Except.ok t', { st with tournaments := st.tournaments.set i t' })

/-- DatabaseStorage.updateTournament: update every row with the id and
return the first updated row, undefined when none matched. -/
def dbUpdateTournament (st : StorageState) (id : String)
    (ins : InsertTournament) (now : Int) :
    Option Tournament × StorageState :=
  let updated := st.tournaments.map fun t =>
    if t.id = id then applyInsertTournament t ins now else t
  (updated.find? fun t => t.id = id, { st with tournaments := updated })

/-- MemoryStorage.setNextTournament / DatabaseStorage.setNextTournament:
upsert the singleton settings row. -/
def setNextTournament (st : StorageState) (tournamentId : String)
    (newId : String) (now : Int) : StorageState :=
  let s' : AppSettings := match st.appSettings with
    | some s =>
      { s with nextTournamentId := some tournamentId, updatedAt := now }
    | none =>
      { id := newId, nextTournamentId := some tournamentId,
        updatedAt := now }
  { st with appSettings := some s' }

/-- The certificate ids currently stored, in storage order. -/
def certIds (st : StorageState) : List String :=
  st.registrations.map fun r => r.certificateId

/-!
The POST /api/registrations pipeline after validation, routes.ts
lines 221 to 247: zod-parse the body into an InsertRegistration with
yearOfBirth sent through parseInt, call createRegistration, and look the
tournament up for the response; any throw is caught and mapped to a
400 Registration failed response.
-/

/-- The value of a list of ASCII decimal digit characters. -/
def digitsVal (l : List Char) : Nat :=
  l.foldl (fun acc c => 10 * acc + (c.toNat - 48)) 0

/-- JavaScript parseInt restricted to the shapes the route can feed it:
trim, optional sign, then the longest leading run of ASCII digits; none
models NaN. -/
def jsParseInt (s : String) : Option Int :=
  let t := jsTrim s
  let signAndRest : Int × List Char := match t.data with
    | '-' :: cs => (-1, cs)
    | '+' :: cs => (1, cs)
    | cs => (1, cs)
  let digs := signAndRest.2.takeWhile Char.isDigit
  if digs.isEmpty then none
  else some (signAndRest.1 * (digitsVal digs : Int))

/-- insertRegistrationSchema.parse over the spread of req.body with
yearOfBirth replaced by parseInt of the field, receiptFilePath by the
stored upload path, and agreedTos by the comparison with the literal
string true; none models a ZodError (missing field or NaN year). -/
def parseRegistrationData (body : RawBody) (file : Option UploadedFile) :
    Option InsertRegistration :=
  match body.tournamentId, body.name, body.phone, body.email,
        body.yearOfBirth with
  | some tid, some nm, some ph, some em, some yb =>
    match jsParseInt yb with
    | none => none
    | some y =>
      some { tournamentId := tid, name := nm, phone := ph, email := em,
             yearOfBirth := y,
             receiptFilePath := (file.map fun f => f.path).getD "",
             agreedTos := some (body.agreedTos == some "true"),
             description := body.description }
  | _, _, _, _, _ => none

/-- The JSON responses POST /api/registrations can produce. -/
inductive RouteResponse where
  | validationFailed (errors : List String)
  | invalidData (errors : List String)
  | registrationFailed (errors : List String)
  | ok (registration : Registration) (tournament : Option Tournament)
deriving Repr, DecidableEq

/-- The POST /api/registrations handler against MemoryStorage: the
validation block, then the parse-and-create pipeline with its catch
branches. -/
def postRegistrations (st : StorageState) (body : RawBody)
    (file : Option UploadedFile) (newId : String) (now : Int)
    (gen : Nat → String) : RouteResponse × StorageState :=
  let errors := validateRegistration body file
  if errors.isEmpty then
    match parseRegistrationData body file with
    | none =>
      (RouteResponse.invalidData
        ["Please check all required fields and try again"], st)
    | some ins =>
      match memCreateRegistration st ins newId now gen with
      | (Except.error _, st') =>
        (RouteResponse.registrationFailed
          ["Please check your information and try again"], st')
      | (Except.ok reg, st') =>
        (RouteResponse.ok reg (getTournament st' reg.tournamentId), st')
  else
    (RouteResponse.validationFailed errors, st)

/-- One createRegistration call's inputs: the insert data and the
call's nondeterministic inputs (generated primary key, clock value,
candidate-id stream). -/
structure CreateCall where
  ins : InsertRegistration
  newId : String
  now : Int
  gen : Nat → String

/-- N sequential createRegistration calls against MemoryStorage,
collecting the returned registrations; none when any call throws. -/
def memRunCreates (st : StorageState) :
    List CreateCall → Option (List Registration × StorageState)
  | [] => some ([], st)
  | c :: cs =>
    match memCreateRegistration st c.ins c.newId c.now c.gen with
    | (Except.error _, _) => none
    | (Except.ok r, st') =>
      match memRunCreates st' cs with
      | none => none
      | some (rs, st'') => some (r :: rs, st'')

/-- N sequential createRegistration calls against DatabaseStorage. -/
def dbRunCreates (st : StorageState) :
    List CreateCall → Option (List Registration × StorageState)
  | [] => some ([], st)
  | c :: cs =>
    match dbCreateRegistration st c.ins c.newId c.now c.gen with
    | (Except.error _, _) => none
    | (Except.ok r, st') =>
      match dbRunCreates st' cs with
      | none => none
      | some (rs, st'') => some (r :: rs, st'')

/-!
Concrete fixtures used to evaluate the operations at specific inputs.
-/

/-- A well-formed insert payload. -/
def wIns : InsertRegistration :=
  { tournamentId := "t1", name := "Ali Karimi", phone := "0912345678",
    email := "ali@example.com", yearOfBirth := 1990,
    receiptFilePath := "uploads/r.png", agreedTos := some true,
    description := none }

/-- A tournament insert payload. -/
def wInsT : InsertTournament :=
  { name := "Open", date := 1700000000, time := "18:00",
    isOpen := some true, venueAddress := "Tehran", venueInfo := none }

/-- The empty store, as a fresh MemoryStorage instance starts. -/
def wSt0 : StorageState := ⟨[], [], [], none⟩

/-- A first creation call with a constant candidate stream. -/
def wCall1 : CreateCall := ⟨wIns, "r1", 1, fun _ => "00000AAAAA"⟩

/-- A second creation call with a different constant stream. -/
def wCall2 : CreateCall := ⟨wIns, "r2", 2, fun _ => "11111BBBBB"⟩

/-- The registration the first call stores. -/
def wReg1 : Registration := mkRegistration wIns "r1" "00000AAAAA" 1

/-- The registration the second call stores. -/
def wReg2 : Registration := mkRegistration wIns "r2" "11111BBBBB" 2

/-- The store after the two calls. -/
def wSt2 : StorageState := ⟨[], [], [wReg1, wReg2], none⟩

/-- A store holding one registration, for collision scenarios. -/
def wSt1 : StorageState := ⟨[], [], [wReg1], none⟩

/-- A tournament with id t1. -/
def wTour : Tournament :=
  { id := "t1", name := "Open", date := 1700000000, time := "18:00",
    isOpen := true, venueAddress := "Tehran", venueInfo := none,
    createdAt := 0, updatedAt := 0 }

/-- A tournament with id t2. -/
def wTour2 : Tournament :=
  { id := "t2", name := "Blitz", date := 1800000000, time := "10:00",
    isOpen := false, venueAddress := "Tehran", venueInfo := none,
    createdAt := 0, updatedAt := 0 }

/-- A registration for tournament t2. -/
def wReg3 : Registration :=
  mkRegistration { wIns with tournamentId := "t2" } "r3" "22222CCCCC" 3

/-- The settings row pointing at tournament t1. -/
def wSettings : AppSettings :=
  { id := "s1", nextTournamentId := some "t1", updatedAt := 0 }

/-- A populated store: two tournaments, registrations for each, a user,
and the next-tournament pointer on t1. -/
def wStFull : StorageState :=
  ⟨[⟨"u1", "admin", "pw"⟩], [wTour, wTour2], [wReg1, wReg3],
   some wSettings⟩

/-!
Theorems.  One theorem per claim, with shared helper lemmas first.
-/

/-- C7: for every input string, normalizeNumerals returns a string of
the same length in which every Persian digit (U+06F0 to U+06F9) and
every Arabic-Indic digit (U+0660 to U+0669) is replaced, position by
position, with the ASCII digit of the same value, and every other
character passes through unchanged; the empty input is returned
as-is. -/
theorem normalizeNumerals_spec :
    (∀ s : String, (normalizeNumerals s).length = s.length) ∧
    (∀ s : String,
      (normalizeNumerals s).data = s.data.map normalizeChar) ∧
    (∀ v : Fin 10, normalizeChar (persianDigit v) = asciiDigit v) ∧
    (∀ v : Fin 10, normalizeChar (arabicIndicDigit v) = asciiDigit v) ∧
    (∀ c : Char, c ∉ persianArabicDigits → normalizeChar c = c) ∧
    normalizeNumerals "" = "" := by
  refine ⟨?_, ?_, ?_, ?_, ?_, ?_⟩
  · intro s
    show (s.data.map normalizeChar).length = s.data.length
    exact List.length_map s.data normalizeChar
  · intro s
    rfl
  · decide
  · decide
  · intro c h
    simp only [persianArabicDigits, List.mem_cons, List.not_mem_nil,
      or_false, not_or] at h
    obtain ⟨h0, h1, h2, h3, h4, h5, h6, h7, h8, h9,
            ha, hb, hc, hd, he, hf, hg, hh, hi, hj⟩ := h
    simp [normalizeChar, h0, h1, h2, h3, h4, h5, h6, h7, h8, h9,
          ha, hb, hc, hd, he, hf, hg, hh, hi, hj]
  · rfl

/-- Witness for C7 at concrete inputs: the latin letter x is not a
Persian or Arabic-Indic digit and is unchanged, and the Persian digit
two maps to the ASCII digit two. -/
theorem normalizeNumerals_spec_witness :
    ('x' ∉ persianArabicDigits ∧ normalizeChar 'x' = 'x') ∧
    normalizeChar (persianDigit 2) = asciiDigit 2 :=
  ⟨⟨by decide, normalizeNumerals_spec.2.2.2.2.1 'x' (by decide)⟩,
   normalizeNumerals_spec.2.2.1 2⟩

/-- A decimal digit character built from a value below ten is an ASCII
digit. -/
theorem ofNat_digit_isDigit : ∀ m : Nat, m < 10 →
    (Char.ofNat (48 + m)).isDigit = true := by
  intro m hm
  interval_cases m <;> decide

/-- Every character of the decimal rendering is an ASCII digit. -/
theorem decChars_all_digit (n : Nat) :
    (decChars n).all Char.isDigit = true := by
  induction n using Nat.strong_induction_on with
  | _ n ih =>
    rw [decChars]
    by_cases h : n < 10
    · rw [dif_pos h]
      simp [ofNat_digit_isDigit n h]
    · rw [dif_neg h]
      rw [List.all_append]
      have hdiv : n / 10 < n := Nat.div_lt_self (by omega) (by omega)
      simp [ih (n / 10) hdiv,
            ofNat_digit_isDigit (n % 10) (Nat.mod_lt n (by omega))]

/-- The decimal rendering of a number below 10 ^ (k + 1) has at most
k + 1 characters. -/
theorem decChars_length_le :
    ∀ (k n : Nat), n < 10 ^ (k + 1) → (decChars n).length ≤ k + 1 := by
  intro k
  induction k with
  | zero =>
    intro n hn
    rw [decChars, dif_pos (by simpa using hn)]
    simp
  | succ k ih =>
    intro n hn
    rw [decChars]
    by_cases h : n < 10
    · rw [dif_pos h]; simp
    · rw [dif_neg h]
      have hdiv : n / 10 < 10 ^ (k + 1) := by
        rw [Nat.div_lt_iff_lt_mul (by omega)]
        calc n < 10 ^ (k + 1 + 1) := hn
        _ = 10 ^ (k + 1) * 10 := by rw [pow_succ]
      have := ih (n / 10) hdiv
      simp only [List.length_append, List.length_singleton]
      omega

/-- The decimal rendering is never empty. -/
theorem decChars_ne_nil (n : Nat) : (decChars n).length ≥ 1 := by
  rw [decChars]
  by_cases h : n < 10
  · rw [dif_pos h]; simp
  · rw [dif_neg h]; simp

/-- Data of a padStart application. -/
theorem padStart_data (s : String) (len : Nat) (c : Char) :
    (padStart s len c).data =
      List.replicate (len - s.length) c ++ s.data := by
  simp [padStart]

/-- A padStart to length five of a string of at most five characters
has exactly five characters. -/
theorem padStart_length (s : String) (h : s.length ≤ 5) :
    ((padStart s 5 '0').data).length = 5 := by
  rw [padStart_data]
  simp only [List.length_append, List.length_replicate]
  have : s.length = s.data.length := rfl
  omega

/-- Every generator letter is an uppercase ASCII letter. -/
theorem letterChar_isUpper : ∀ i : Fin 26,
    (letterChar i).isUpper = true := by decide

/-- C6: every certificate id produced by the generator is a string of
length exactly ten whose first five characters are ASCII decimal digits
and whose last five characters are uppercase ASCII letters A to Z. -/
theorem generateCertificateId_format (d : Fin 100000)
    (l1 l2 l3 l4 l5 : Fin 26) :
    (generateCertificateId d l1 l2 l3 l4 l5).length = 10 ∧
    ((generateCertificateId d l1 l2 l3 l4 l5).data.take 5).all
      Char.isDigit = true ∧
    ((generateCertificateId d l1 l2 l3 l4 l5).data.drop 5).all
      Char.isUpper = true := by
  have hlt : d.val < 10 ^ (4 + 1) := by
    have h : (10 : Nat) ^ (4 + 1) = 100000 := by norm_num
    rw [h]
    exact d.isLt
  have hlen5 : ((padStart (String.mk (decChars d.val)) 5 '0').data).length
      = 5 := by
    apply padStart_length
    show (decChars d.val).length ≤ 5
    exact decChars_length_le 4 d.val hlt
  have hdata : (generateCertificateId d l1 l2 l3 l4 l5).data =
      (padStart (String.mk (decChars d.val)) 5 '0').data ++
      [letterChar l1, letterChar l2, letterChar l3,
       letterChar l4, letterChar l5] := by
    simp [generateCertificateId, String.data_append]
  refine ⟨?_, ?_, ?_⟩
  · show (generateCertificateId d l1 l2 l3 l4 l5).data.length = 10
    rw [hdata, List.length_append, hlen5]
    rfl
  · rw [hdata, List.take_left' hlen5]
    rw [padStart_data]
    rw [List.all_append]
    have hrep : (List.replicate (5 - (String.mk (decChars d.val)).length)
        '0').all Char.isDigit = true := by
      rw [List.all_eq_true]
      intro c hc
      rw [List.eq_of_mem_replicate hc]
      decide
    have : (String.mk (decChars d.val)).data = decChars d.val := rfl
    rw [hrep, this, decChars_all_digit]
    rfl
  · rw [hdata, List.drop_left' hlen5]
    simp [letterChar_isUpper]

/-- Pushing an error onto the accumulated list is appending the
independently evaluated message list. -/
theorem push_step (c : Prop) [Decidable c] (l : List String)
    (m : String) :
    (if c then l ++ [m] else l) = l ++ (if c then [m] else []) := by
  split <;> simp

/-- The two-branch push of the year rule in the same shape. -/
theorem push_step2 (c1 c2 : Prop) [Decidable c1] [Decidable c2]
    (l : List String) (m1 m2 : String) :
    (if c1 then l ++ [m1] else if c2 then l ++ [m2] else l) =
      l ++ (if c1 then [m1] else if c2 then [m2] else []) := by
  split_ifs <;> simp

/-- The two-branch push after the inner branch is already in appended
form. -/
theorem push_step2b (c1 c2 : Prop) [Decidable c1] [Decidable c2]
    (l : List String) (m1 m2 : String) :
    (if c1 then l ++ [m1] else l ++ (if c2 then [m2] else [])) =
      l ++ (if c1 then [m1] else if c2 then [m2] else []) := by
  split_ifs <;> simp

/-- The validation block is the ordered concatenation of the
independently evaluated per-rule message lists. -/
theorem validateRegistration_eq (body : RawBody)
    (file : Option UploadedFile) :
    validateRegistration body file =
      nameErrors body ++ phoneErrors body ++ emailErrors body ++
      yearErrors body ++ fileErrors file ++ tosErrors body ++
      tournamentErrors body := by
  unfold validateRegistration nameErrors phoneErrors emailErrors
    yearErrors fileErrors tosErrors tournamentErrors
  cases file with
  | none =>
    simp only [push_step, push_step2, push_step2b]
    simp only [List.nil_append, List.append_assoc]
  | some f =>
    simp only [push_step, push_step2, push_step2b]
    simp only [List.nil_append, List.append_assoc]

/-- C5 counterexample: a submission violating only the receipt-file
rule, through both its type check and its size check, yields two
messages, not one message for the one violated rule. -/
theorem file_rule_two_messages :
    validateRegistration
      { name := some "Ali Karimi", phone := some "0912345678",
        email := some "ali@example.com", yearOfBirth := some "1990",
        agreedTos := some "true", tournamentId := some "t1",
        description := none }
      (some { mimetype := "text/plain", size := 10 * 1024 * 1024 + 1,
              path := "p" }) =
      ["Only JPEG, PNG, and PDF files are allowed",
       "File size must be less than 10MB"] := by
  decide

/-- C5 amended: validation evaluates all seven rules independently
without short-circuiting and returns the concatenation, in the fixed
rule order, of every violated check's messages, the receipt-file rule
contributing up to two messages (type and size); in particular, when
all seven rules are violated at once all seven messages appear
simultaneously. -/
theorem validation_all_rules_ordered :
    (∀ (body : RawBody) (file : Option UploadedFile),
      validateRegistration body file =
        nameErrors body ++ phoneErrors body ++ emailErrors body ++
        yearErrors body ++ fileErrors file ++ tosErrors body ++
        tournamentErrors body) ∧
    validateRegistration
      { name := none, phone := none, email := none, yearOfBirth := none,
        agreedTos := none, tournamentId := none, description := none }
      none =
      ["Full name must be at least 2 characters long",
       "Phone number must be at least 10 digits",
       "Valid email address is required",
       "Year of birth is required",
       "Receipt file is required",
       "You must agree to the Terms of Service",
       "Tournament selection is required"] :=
  ⟨validateRegistration_eq, by decide⟩

/-- C4 counterexample: a ten-character phone value consisting only of
latin letters, outside any phone character set, passes the whole
validation block: no error at all is produced. -/
theorem phone_letters_accepted :
    validateRegistration
      { name := some "Ali Karimi", phone := some "abcdefghij",
        email := some "ali@example.com", yearOfBirth := some "1990",
        agreedTos := some "true", tournamentId := some "t1",
        description := none }
      (some { mimetype := "image/png", size := 1000, path := "p" }) =
      [] := by
  decide

/-- C4 amended: the phone field passes validation exactly when it is
present and at least ten characters long; no character-set restriction
is applied. -/
theorem phone_rule_length_only (body : RawBody)
    (file : Option UploadedFile) :
    "Phone number must be at least 10 digits" ∈
        validateRegistration body file ↔
      (body.phone.getD "").length < 10 := by
  have hn : "Phone number must be at least 10 digits" ∉
      nameErrors body := by
    unfold nameErrors; split <;> decide
  have he : "Phone number must be at least 10 digits" ∉
      emailErrors body := by
    unfold emailErrors; split <;> decide
  have hy : "Phone number must be at least 10 digits" ∉
      yearErrors body := by
    unfold yearErrors; split_ifs <;> decide
  have hf : "Phone number must be at least 10 digits" ∉
      fileErrors file := by
    unfold fileErrors
    cases file with
    | none => decide
    | some f =>
      dsimp only
      split_ifs <;> decide
  have htos : "Phone number must be at least 10 digits" ∉
      tosErrors body := by
    unfold tosErrors; split <;> decide
  have ht : "Phone number must be at least 10 digits" ∉
      tournamentErrors body := by
    unfold tournamentErrors; split <;> decide
  have hcore : "Phone number must be at least 10 digits" ∈
      phoneErrors body ↔ (body.phone.getD "").length < 10 := by
    unfold phoneErrors
    cases hp : body.phone with
    | none => simp [jsFalsy]
    | some s =>
      by_cases hs : s = ""
      · subst hs
        simp [jsFalsy]
      · simp only [jsFalsy, Option.getD_some, hs, decide_False,
          Bool.false_or]
        split_ifs with h
        · simpa using h
        · simpa using h
  rw [validateRegistration_eq]
  simp only [List.mem_append, hn, he, hy, hf, htos, ht, or_false,
    false_or]
  exact hcore

/-- C3 (code evidence): a submission whose yearOfBirth is written in
Persian digits is rejected by the year rule with nothing persisted,
because no numeral normalization is applied anywhere in the route;
normalizing first would have made the very same value pass the
check. -/
theorem persian_year_rejected_without_normalization :
    (postRegistrations ⟨[], [], [], none⟩
      { name := some "Ali Karimi", phone := some "0912345678",
        email := some "ali@example.com", yearOfBirth := some "۲۰۰۵",
        agreedTos := some "true", tournamentId := some "t1",
        description := none }
      (some { mimetype := "image/png", size := 1000, path := "p" })
      "r1" 0 (fun _ => "00000AAAAA") =
      (RouteResponse.validationFailed
        ["Year of birth must be a 4-digit number"],
       ⟨[], [], [], none⟩)) ∧
    normalizeNumerals "۲۰۰۵" = "2005" ∧
    isFourAsciiDigits (normalizeNumerals "۲۰۰۵") = true ∧
    isFourAsciiDigits "۲۰۰۵" = false ∧
    jsParseInt (normalizeNumerals "۲۰۰۵") = some 2005 := by
  refine ⟨?_, ?_, ?_, ?_, ?_⟩ <;> decide

/-- A candidate returned by the retry loop collides with no stored
registration. -/
theorem certIdAttempts_fresh (regs : List Registration)
    (gen : Nat → String) :
    ∀ (fuel start : Nat) (cid : String),
      certIdAttempts regs gen start fuel = some cid →
      (regs.any fun r => r.certificateId = cid) = false := by
  intro fuel
  induction fuel with
  | zero =>
    intro start cid h
    simp [certIdAttempts] at h
  | succ n ih =>
    intro start cid h
    rw [certIdAttempts] at h
    by_cases hc : (regs.any fun r => r.certificateId = gen start) = true
    · rw [if_pos hc] at h
      exact ih _ _ h
    · rw [if_neg hc] at h
      cases h
      simpa using hc

/-- The retry loop only looks at the candidates of the attempts it may
make: two candidate streams agreeing on those indices give the same
outcome. -/
theorem certIdAttempts_congr (regs : List Registration)
    (gen gen' : Nat → String) :
    ∀ (fuel start : Nat), (∀ i, i < start + fuel → gen i = gen' i) →
      certIdAttempts regs gen start fuel =
        certIdAttempts regs gen' start fuel := by
  intro fuel
  induction fuel with
  | zero => intro start _; rfl
  | succ n ih =>
    intro start h
    have hstart : gen start = gen' start := h start (by omega)
    rw [certIdAttempts, certIdAttempts, hstart]
    by_cases hc : (regs.any fun r => r.certificateId = gen' start) = true
    · rw [if_pos hc, if_pos hc]
      exact ih (start + 1) fun i hi => h i (by omega)
    · rw [if_neg hc, if_neg hc]

/-- When every candidate the loop may try collides, the loop fails. -/
theorem certIdAttempts_exhaust (regs : List Registration)
    (gen : Nat → String) :
    ∀ (fuel start : Nat),
      (∀ i, i < start + fuel →
        (regs.any fun r => r.certificateId = gen i) = true) →
      certIdAttempts regs gen start fuel = none := by
  intro fuel
  induction fuel with
  | zero => intro start _; rfl
  | succ n ih =>
    intro start h
    rw [certIdAttempts]
    rw [if_pos (h start (by omega))]
    exact ih (start + 1) fun i hi => h i (by omega)

/-- A successful createRegistration call returns a record carrying a
certificate id that was not stored before, appends exactly that record,
and leaves everything else unchanged; this is the step lemma both
backends share since their createRegistration bodies agree. -/
theorem memCreateRegistration_ok (st : StorageState)
    (ins : InsertRegistration) (newId : String) (now : Int)
    (gen : Nat → String) (reg : Registration) (st' : StorageState)
    (h : memCreateRegistration st ins newId now gen =
      (Except.ok reg, st')) :
    reg.certificateId ∉ certIds st ∧
      certIds st' = certIds st ++ [reg.certificateId] := by
  unfold memCreateRegistration at h
  cases hfind : findCertificateId st.registrations gen with
  | none => rw [hfind] at h; cases h
  | some cid =>
    rw [hfind] at h
    dsimp only at h
    rw [Prod.mk.injEq] at h
    obtain ⟨h1, h2⟩ := h
    have hr : reg = mkRegistration ins newId cid now := by
      injection h1 with h1
      exact h1.symm
    have hcid : reg.certificateId = cid := by
      rw [hr]
      simp [mkRegistration]
    constructor
    · rw [hcid]
      intro hmem
      have hfresh := certIdAttempts_fresh st.registrations gen 10 0 cid
        hfind
      rw [List.any_eq_false] at hfresh
      obtain ⟨r, hrmem, hrid⟩ := List.mem_map.mp hmem
      exact hfresh r hrmem (by simpa using hrid)
    · rw [← h2, hcid]
      simp [certIds, mkRegistration]

/-- dbCreateRegistration computes the same function as
memCreateRegistration (the two source bodies perform the same loop and
the same insert). -/
theorem dbCreateRegistration_eq_mem (st : StorageState)
    (ins : InsertRegistration) (newId : String) (now : Int)
    (gen : Nat → String) :
    dbCreateRegistration st ins newId now gen =
      memCreateRegistration st ins newId now gen := rfl

/-- Sequential successful creations: the final stored certificate ids
are the initial ones followed by the returned ones, every returned id
is new relative to the initial state, and the returned ids are pairwise
distinct. -/
theorem memRunCreates_spec :
    ∀ (calls : List CreateCall) (st : StorageState)
      (regs : List Registration) (st' : StorageState),
      memRunCreates st calls = some (regs, st') →
      certIds st' = certIds st ++ (regs.map fun r => r.certificateId) ∧
      (∀ x ∈ regs.map fun r => r.certificateId, x ∉ certIds st) ∧
      (regs.map fun r => r.certificateId).Nodup := by
  intro calls
  induction calls with
  | nil =>
    intro st regs st' h
    cases h
    simp
  | cons c cs ih =>
    intro st regs st' h
    unfold memRunCreates at h
    cases hcr : memCreateRegistration st c.ins c.newId c.now c.gen with
    | mk e st1 =>
      rw [hcr] at h
      cases e with
      | error msg =>
        dsimp only at h
        exact Option.noConfusion h
      | ok r =>
        dsimp only at h
        cases hrun : memRunCreates st1 cs with
        | none =>
          rw [hrun] at h
          dsimp only at h
          exact Option.noConfusion h
        | some p =>
          obtain ⟨rs, st2⟩ := p
          rw [hrun] at h
          dsimp only at h
          rw [Option.some.injEq, Prod.mk.injEq] at h
          obtain ⟨hregs, hst⟩ := h
          subst hregs
          subst hst
          obtain ⟨hfresh, hids⟩ :=
            memCreateRegistration_ok st c.ins c.newId c.now c.gen r st1
              hcr
          obtain ⟨hids2, hnotin2, hnd2⟩ := ih st1 rs st2 hrun
          refine ⟨?_, ?_, ?_⟩
          · rw [hids2, hids]
            simp
          · intro x hx
            simp only [List.map_cons, List.mem_cons] at hx
            cases hx with
            | inl hx => rw [hx]; exact hfresh
            | inr hx =>
              have := hnotin2 x hx
              rw [hids] at this
              simp only [List.mem_append] at this
              exact fun hmem => this (Or.inl hmem)
          · simp only [List.map_cons, List.nodup_cons]
            refine ⟨?_, hnd2⟩
            intro hmem
            have := hnotin2 r.certificateId hmem
            rw [hids] at this
            simp at this

/-- dbRunCreates computes the same function as memRunCreates. -/
theorem dbRunCreates_eq_mem (calls : List CreateCall) :
    ∀ st : StorageState, dbRunCreates st calls = memRunCreates st calls := by
  induction calls with
  | nil => intro st; rfl
  | cons c cs ih =>
    intro st
    unfold dbRunCreates memRunCreates
    rw [dbCreateRegistration_eq_mem]
    cases memCreateRegistration st c.ins c.newId c.now c.gen with
    | mk e st1 =>
      cases e with
      | error m => rfl
      | ok r =>
        dsimp only
        rw [ih st1]

/-- updateTournament never touches the registrations, so the stored
certificate ids are unchanged. -/
theorem certIds_memUpdateTournament (st : StorageState) (id : String)
    (ins : InsertTournament) (now : Int) :
    certIds (memUpdateTournament st id ins now).2 = certIds st := by
  unfold memUpdateTournament
  split
  · rfl
  · split
    · rfl
    · rfl

/-- Setting the confirmation flag in place does not change any
certificate id. -/
theorem certIds_setConfirmedFirst (l : List Registration)
    (rid : String) :
    (setConfirmedFirst l rid).map (fun r => r.certificateId) =
      l.map fun r => r.certificateId := by
  induction l with
  | nil => rfl
  | cons r rs ih =>
    unfold setConfirmedFirst
    split
    · rfl
    · simp only [List.map_cons, ih]

/-- MemoryStorage.confirmCertificate keeps the certificate ids. -/
theorem certIds_memConfirmCertificate (st : StorageState)
    (rid : String) :
    certIds (memConfirmCertificate st rid).2 = certIds st := by
  unfold memConfirmCertificate
  split
  · rfl
  · show certIds { st with
      registrations := setConfirmedFirst st.registrations rid } =
      certIds st
    unfold certIds
    exact certIds_setConfirmedFirst st.registrations rid

/-- The flag-setting map of DatabaseStorage.confirmCertificate keeps
the certificate ids. -/
theorem map_certId_set_flag (l : List Registration) (rid : String) :
    (l.map fun r =>
      if r.id = rid then { r with certificateConfirmed := true }
      else r).map (fun r => r.certificateId) =
      l.map fun r => r.certificateId := by
  induction l with
  | nil => rfl
  | cons r rs ih =>
    simp only [List.map_cons, ih]
    congr 1
    split <;> rfl

/-- DatabaseStorage.confirmCertificate keeps the certificate ids. -/
theorem certIds_dbConfirmCertificate (st : StorageState)
    (rid : String) :
    certIds (dbConfirmCertificate st rid).2 = certIds st := by
  unfold dbConfirmCertificate certIds
  exact map_certId_set_flag st.registrations rid

/-- deleteTournament only removes registrations, so the stored
certificate ids form a sublist of the previous ones. -/
theorem certIds_memDeleteTournament_sublist (st : StorageState)
    (id : String) (now : Int) :
    List.Sublist (certIds (memDeleteTournament st id now))
      (certIds st) := by
  unfold memDeleteTournament certIds
  exact (List.filter_sublist _).map _

/-- createRegistration preserves distinctness of the stored
certificate ids: a failed call leaves the state alone and a successful
call appends an id that collided with nothing stored. -/
theorem memCreateRegistration_preserves_nodup (st : StorageState)
    (ins : InsertRegistration) (newId : String) (now : Int)
    (gen : Nat → String) (hnd : (certIds st).Nodup) :
    (certIds (memCreateRegistration st ins newId now gen).2).Nodup := by
  unfold memCreateRegistration
  cases hfind : findCertificateId st.registrations gen with
  | none => exact hnd
  | some cid =>
    dsimp only
    have hfresh := certIdAttempts_fresh st.registrations gen 10 0 cid
      hfind
    rw [List.any_eq_false] at hfresh
    have hnotin : cid ∉ certIds st := by
      intro hmem
      obtain ⟨r, hrmem, hrid⟩ := List.mem_map.mp hmem
      exact hfresh r hrmem (by simpa using hrid)
    show (certIds { st with
      registrations :=
        st.registrations ++ [mkRegistration ins newId cid now] }).Nodup
    have : certIds { st with
        registrations :=
          st.registrations ++ [mkRegistration ins newId cid now] } =
        certIds st ++ [cid] := by
      simp [certIds, mkRegistration]
    rw [this, List.nodup_append]
    refine ⟨hnd, List.nodup_singleton cid, ?_⟩
    intro a ha hb
    rw [List.mem_singleton] at hb
    subst hb
    exact hnotin ha

/-- C1: across N sequential successful createRegistration calls on the
same store instance, in memory or durable, the N resulting certificate
ids are pairwise distinct; and distinctness of all stored certificate
ids is an invariant preserved by every mutating store operation of
either backend. -/
theorem certificateId_uniqueness_invariant
    (st : StorageState) (calls : List CreateCall)
    (regs : List Registration) (st' : StorageState)
    (insU : InsertUser) (insT : InsertTournament)
    (ins : InsertRegistration) (newId : String) (now : Int)
    (gen : Nat → String) (id rid tid : String) :
    (memRunCreates st calls = some (regs, st') →
      (regs.map fun r => r.certificateId).Nodup) ∧
    (dbRunCreates st calls = some (regs, st') →
      (regs.map fun r => r.certificateId).Nodup) ∧
    ((certIds st).Nodup →
      (memRunCreates st calls = some (regs, st') →
        (certIds st').Nodup) ∧
      (certIds (createUser st insU newId).2).Nodup ∧
      (certIds (createTournament st insT newId now).2).Nodup ∧
      (certIds (memUpdateTournament st id insT now).2).Nodup ∧
      (certIds (dbUpdateTournament st id insT now).2).Nodup ∧
      (certIds (memDeleteTournament st id now)).Nodup ∧
      (certIds (dbDeleteTournament st id now)).Nodup ∧
      (certIds (setNextTournament st tid newId now)).Nodup ∧
      (certIds (memConfirmCertificate st rid).2).Nodup ∧
      (certIds (dbConfirmCertificate st rid).2).Nodup ∧
      (certIds (memCreateRegistration st ins newId now gen).2).Nodup ∧
      (certIds (dbCreateRegistration st ins newId now gen).2).Nodup) := by
  refine ⟨?_, ?_, ?_⟩
  · intro h
    exact (memRunCreates_spec calls st regs st' h).2.2
  · intro h
    rw [dbRunCreates_eq_mem] at h
    exact (memRunCreates_spec calls st regs st' h).2.2
  · intro hnd
    refine ⟨?_, hnd, hnd, ?_, hnd, ?_, ?_, hnd, ?_, ?_, ?_, ?_⟩
    · intro h
      obtain ⟨hids, hnotin, hnd2⟩ := memRunCreates_spec calls st regs
        st' h
      rw [hids, List.nodup_append]
      exact ⟨hnd, hnd2, fun a h1 h2 => hnotin a h2 h1⟩
    · rw [certIds_memUpdateTournament]; exact hnd
    · exact (certIds_memDeleteTournament_sublist st id now).nodup hnd
    · exact (certIds_memDeleteTournament_sublist st id now).nodup hnd
    · rw [certIds_memConfirmCertificate]; exact hnd
    · rw [certIds_dbConfirmCertificate]; exact hnd
    · exact memCreateRegistration_preserves_nodup st ins newId now gen
        hnd
    · rw [dbCreateRegistration_eq_mem]
      exact memCreateRegistration_preserves_nodup st ins newId now gen
        hnd

/-- Witness for C1: two concrete sequential creations on the empty
store return two distinct certificate ids. -/
theorem certificateId_uniqueness_invariant_witness :
    ([wReg1, wReg2].map fun r => r.certificateId).Nodup :=
  (certificateId_uniqueness_invariant wSt0 [wCall1, wCall2]
    [wReg1, wReg2] wSt2 ⟨"u", "p"⟩ wInsT wIns "x" 0 (fun _ => "X")
    "i" "r" "t").1 (by rfl)

/-- C2: createRegistration inspects at most ten candidate ids (its
outcome only depends on the first ten values of the candidate stream),
and when every one of those candidates collides with a stored
certificate id the call fails with the exhaustion error and the store
is exactly what it was before the call; identically on both
backends. -/
theorem createRegistration_bounded_attempts
    (st : StorageState) (ins : InsertRegistration) (newId : String)
    (now : Int) (gen gen' : Nat → String) :
    ((∀ i, i < 10 → gen i = gen' i) →
      memCreateRegistration st ins newId now gen =
        memCreateRegistration st ins newId now gen' ∧
      dbCreateRegistration st ins newId now gen =
        dbCreateRegistration st ins newId now gen') ∧
    ((∀ i, i < 10 →
        (st.registrations.any fun r => r.certificateId = gen i) =
          true) →
      memCreateRegistration st ins newId now gen =
        (Except.error
          "Unable to generate unique certificate ID after multiple attempts",
         st) ∧
      dbCreateRegistration st ins newId now gen =
        (Except.error
          "Unable to generate unique certificate ID after multiple attempts",
         st)) := by
  constructor
  · intro h
    have hfind : findCertificateId st.registrations gen =
        findCertificateId st.registrations gen' :=
      certIdAttempts_congr st.registrations gen gen' 10 0
        (by simpa using h)
    constructor
    · unfold memCreateRegistration
      rw [hfind]
    · rw [dbCreateRegistration_eq_mem, dbCreateRegistration_eq_mem]
      unfold memCreateRegistration
      rw [hfind]
  · intro h
    have hnone : findCertificateId st.registrations gen = none :=
      certIdAttempts_exhaust st.registrations gen 10 0
        (by simpa using h)
    constructor
    · unfold memCreateRegistration
      rw [hnone]
    · rw [dbCreateRegistration_eq_mem]
      unfold memCreateRegistration
      rw [hnone]

/-- Witness for C2: on a store holding certificate id 00000AAAAA, a
candidate stream that always produces 00000AAAAA makes both backends
fail with the exhaustion error and leave the store unchanged. -/
theorem createRegistration_bounded_attempts_witness :
    memCreateRegistration wSt1 wIns "r9" 9 (fun _ => "00000AAAAA") =
      (Except.error
        "Unable to generate unique certificate ID after multiple attempts",
       wSt1) ∧
    dbCreateRegistration wSt1 wIns "r9" 9 (fun _ => "00000AAAAA") =
      (Except.error
        "Unable to generate unique certificate ID after multiple attempts",
       wSt1) :=
  (createRegistration_bounded_attempts wSt1 wIns "r9" 9
    (fun _ => "00000AAAAA") (fun _ => "00000AAAAA")).2
    (fun i _ => by decide)

/-- C9 (code evidence): confirming a registration id with no
registration in the store: MemoryStorage fails with Registration not
found and the store is unchanged, while DatabaseStorage returns no
record and no error at all, although the common contract requires both
backends to fail identically with NotFound rather than return an
absent record. -/
theorem confirmCertificate_missing_divergence :
    memConfirmCertificate wSt1 "r9" =
      (Except.error "Registration not found", wSt1) ∧
    dbConfirmCertificate wSt1 "r9" = (none, wSt1) := by
  constructor <;> rfl

/-- Filtering first does not change a lookup whose predicate entails
the filter predicate. -/
theorem find?_filter_of_imp {α : Type} (l : List α) (p q : α → Bool)
    (h : ∀ x, q x = true → p x = true) :
    (l.filter p).find? q = l.find? q := by
  induction l with
  | nil => rfl
  | cons x xs ih =>
    rw [List.filter_cons]
    by_cases hq : q x = true
    · rw [if_pos (h x hq)]
      rw [List.find?_cons_of_pos _ hq, List.find?_cons_of_pos _ hq]
    · by_cases hp : p x = true
      · rw [if_pos hp, List.find?_cons_of_neg _ hq,
          List.find?_cons_of_neg _ hq]
        exact ih
      · rw [if_neg hp, List.find?_cons_of_neg _ hq]
        exact ih

/-- The two deleteTournament bodies compute the same function. -/
theorem dbDeleteTournament_eq_mem (st : StorageState) (id : String)
    (now : Int) :
    dbDeleteTournament st id now = memDeleteTournament st id now := rfl

/-- C8: deleting the tournament the singleton next-tournament pointer
names clears the pointer and removes its registrations: afterwards
getNextTournament is absent, getRegistrations for that id is empty, no
stored registration or tournament carries the id, and the settings row
holds a null pointer; identically on both backends. -/
theorem deleteTournament_clears_next_and_registrations
    (st : StorageState) (s : AppSettings) (id : String) (now : Int)
    (hset : st.appSettings = some s)
    (hnext : s.nextTournamentId = some id)
    (hid : id ≠ "") :
    (getNextTournament (memDeleteTournament st id now) = none ∧
     getRegistrations (memDeleteTournament st id now) (some id) = [] ∧
     (∀ r ∈ (memDeleteTournament st id now).registrations,
       r.tournamentId ≠ id) ∧
     (∀ t ∈ (memDeleteTournament st id now).tournaments, t.id ≠ id) ∧
     (memDeleteTournament st id now).appSettings =
       some { s with nextTournamentId := none, updatedAt := now }) ∧
    (getNextTournament (dbDeleteTournament st id now) = none ∧
     getRegistrations (dbDeleteTournament st id now) (some id) = [] ∧
     (∀ r ∈ (dbDeleteTournament st id now).registrations,
       r.tournamentId ≠ id) ∧
     (∀ t ∈ (dbDeleteTournament st id now).tournaments, t.id ≠ id) ∧
     (dbDeleteTournament st id now).appSettings =
       some { s with nextTournamentId := none, updatedAt := now }) := by
  have hsettings : (memDeleteTournament st id now).appSettings =
      some { s with nextTournamentId := none, updatedAt := now } := by
    unfold memDeleteTournament
    rw [hset]
    dsimp only
    rw [if_pos hnext]
  have hregs : (memDeleteTournament st id now).registrations =
      st.registrations.filter (fun r => r.tournamentId ≠ id) := rfl
  have hmem :
      getNextTournament (memDeleteTournament st id now) = none ∧
      getRegistrations (memDeleteTournament st id now) (some id) =
        [] ∧
      (∀ r ∈ (memDeleteTournament st id now).registrations,
        r.tournamentId ≠ id) ∧
      (∀ t ∈ (memDeleteTournament st id now).tournaments,
        t.id ≠ id) ∧
      (memDeleteTournament st id now).appSettings =
        some { s with nextTournamentId := none, updatedAt := now } := by
    refine ⟨?_, ?_, ?_, ?_, hsettings⟩
    · unfold getNextTournament
      rw [hsettings]
    · unfold getRegistrations
      dsimp only
      rw [if_neg hid, hregs]
      have hnil : (st.registrations.filter
          (fun r => r.tournamentId ≠ id)).filter
          (fun r => r.tournamentId = id) = [] := by
        rw [List.filter_eq_nil_iff]
        intro a ha
        have := List.of_mem_filter ha
        simp only [decide_eq_true_eq] at this ⊢
        exact this
      rw [hnil]
      rfl
    · intro r hr
      rw [hregs] at hr
      have := List.of_mem_filter hr
      simpa using this
    · intro t ht
      have htt : t ∈ st.tournaments.filter (fun t => t.id ≠ id) := ht
      have := List.of_mem_filter htt
      simpa using this
  exact ⟨hmem, by rw [dbDeleteTournament_eq_mem]; exact hmem⟩

/-- Witness for C8 on a populated store whose pointer names t1: after
deleting t1, the next tournament is absent and the registration list of
t1 is empty. -/
theorem deleteTournament_clears_witness :
    getNextTournament (memDeleteTournament wStFull "t1" 5) = none ∧
    getRegistrations (memDeleteTournament wStFull "t1" 5)
      (some "t1") = [] :=
  have h := deleteTournament_clears_next_and_registrations wStFull
    wSettings "t1" 5 rfl rfl (by decide)
  ⟨h.1.1, h.1.2.1⟩

/-- C10: deleteTournament removes exactly the tournament with the
given id and the registrations referencing it; every other tournament,
every registration with a different tournamentId, every user record,
and every lookup of a different tournament id are untouched, on both
backends. -/
theorem deleteTournament_frame (st : StorageState) (d : String)
    (now : Int) :
    ((memDeleteTournament st d now).users = st.users ∧
     (∀ t, t ∈ (memDeleteTournament st d now).tournaments ↔
       t ∈ st.tournaments ∧ t.id ≠ d) ∧
     (∀ r, r ∈ (memDeleteTournament st d now).registrations ↔
       r ∈ st.registrations ∧ r.tournamentId ≠ d) ∧
     (∀ tid, tid ≠ d →
       getTournament (memDeleteTournament st d now) tid =
         getTournament st tid)) ∧
    ((dbDeleteTournament st d now).users = st.users ∧
     (∀ t, t ∈ (dbDeleteTournament st d now).tournaments ↔
       t ∈ st.tournaments ∧ t.id ≠ d) ∧
     (∀ r, r ∈ (dbDeleteTournament st d now).registrations ↔
       r ∈ st.registrations ∧ r.tournamentId ≠ d) ∧
     (∀ tid, tid ≠ d →
       getTournament (dbDeleteTournament st d now) tid =
         getTournament st tid)) := by
  have hmem : (memDeleteTournament st d now).users = st.users ∧
      (∀ t, t ∈ (memDeleteTournament st d now).tournaments ↔
        t ∈ st.tournaments ∧ t.id ≠ d) ∧
      (∀ r, r ∈ (memDeleteTournament st d now).registrations ↔
        r ∈ st.registrations ∧ r.tournamentId ≠ d) ∧
      (∀ tid, tid ≠ d →
        getTournament (memDeleteTournament st d now) tid =
          getTournament st tid) := by
    refine ⟨rfl, ?_, ?_, ?_⟩
    · intro t
      show t ∈ st.tournaments.filter (fun t => t.id ≠ d) ↔ _
      rw [List.mem_filter]
      simp
    · intro r
      show r ∈ st.registrations.filter
        (fun r => r.tournamentId ≠ d) ↔ _
      rw [List.mem_filter]
      simp
    · intro tid htid
      show (st.tournaments.filter (fun t => t.id ≠ d)).find?
        (fun t => t.id = tid) = st.tournaments.find?
        (fun t => t.id = tid)
      apply find?_filter_of_imp
      intro x hx
      simp only [decide_eq_true_eq] at hx ⊢
      rw [hx]
      exact htid
  exact ⟨hmem, by rw [dbDeleteTournament_eq_mem]; exact hmem⟩

/-- Witness for C10: deleting t1 from the populated store leaves the
lookup of t2 unchanged. -/
theorem deleteTournament_frame_witness :
    getTournament (memDeleteTournament wStFull "t1" 5) "t2" =
      getTournament wStFull "t2" :=
  (deleteTournament_frame wStFull "t1" 5).1.2.2.2 "t2" (by decide)

end Siahrokh
